import Mathlib

/-!
Verification of the resumable domain-availability checking pipeline
(`scripts/check_availability.py`) against its specification.

The pipeline iterates over an ordered candidate list, performs one RDAP
lookup per candidate, classifies the response (404 → available, 200 →
taken, anything else → error), appends classified domains to per-outcome
output files, maintains counters, and periodically persists a checkpoint
so the run can resume after interruption.

Modelling conventions:
- Machine state that the Python code keeps in the checkpoint dict becomes
  the structure `CheckState`; timestamps (`started_at`, `updated_at`,
  ISO strings in the code) are abstracted to natural numbers supplied via
  a `now` parameter.
- The filesystem of checkpoint files becomes a map from file name to the
  parsed checkpoint (`store : String → Option CheckState`); the byte-level
  content of a checkpoint file is modelled separately for the
  atomicity analysis (`serializeCheckpoint`, `save_checkpoint_crash_states`).
- Network behaviour is an oracle `String → RdapResponse` from the request
  URL to the registry's response; a pure oracle models a registry whose
  answer per URL is stable for the duration of the scenario.
- Output files opened in append mode are modelled as the lists of lines
  appended during a run (each line is written newline-terminated by the
  code; the model stores the line without the terminator).
- Wall-clock pacing (`time.sleep(delay)`) is modelled by a virtual clock
  (`lookupTime`) in which each sleep advances time by exactly `delay` and
  each check takes a nonnegative amount of time.
-/

namespace DomainCheck

/-- Checkpoint state, mirroring the dict built by `load_checkpoint`
(`last_index`, `checked`, `available`, `taken`, `errors`, `started_at`)
plus the `updated_at` key that `save_checkpoint` adds on first persist
(absent before that, hence an `Option`). Timestamps are abstracted to
naturals. -/
structure CheckState where
  last_index : Nat
  checked : Nat
  available : Nat
  taken : Nat
  errors : Nat
  started_at : Nat
  updated_at : Option Nat
deriving Repr, DecidableEq

/-- The default state returned by `load_checkpoint` when no checkpoint
file exists: zeroed counters and `started_at = now` (source lines 53-60). -/
def freshState (now : Nat) : CheckState :=
  { last_index := 0, checked := 0, available := 0, taken := 0, errors := 0,
    started_at := now, updated_at := none }

/-- File-name template `CHECKPOINT_FILE = 'checkpoint_{tld}.json'`
(source line 32). -/
def checkpoint_file (tld : String) : String :=
  "checkpoint_" ++ tld ++ ".json"

/-- Embedding of `load_checkpoint` (source lines 47-60): if the checkpoint
file for the tld exists in the store, return its parsed content, else
return the fresh default state. `store` maps a file name to the parsed
checkpoint it holds, `none` meaning the file does not exist. -/
def load_checkpoint (store : String → Option CheckState) (now : Nat) (tld : String) :
    CheckState :=
  match store (checkpoint_file tld) with
  | some st => st
  | none => freshState now

/-- Embedding of the state mutation performed by `save_checkpoint`
(source line 65): it sets `state['updated_at']` to the current time
before writing. The written file content is modelled separately by
`save_checkpoint_file`. -/
def save_checkpoint (now : Nat) (s : CheckState) : CheckState :=
  { s with updated_at := some now }

/-- A registry's answer to one RDAP GET request: an HTTP status code, a
request timeout (`requests.exceptions.Timeout`), or any other transport
failure (`requests.exceptions.RequestException`). -/
inductive RdapResponse where
  | status (code : Nat)
  | timeout
  | transportError
deriving Repr, DecidableEq

/-- Response classification from `check_rdap` (source lines 86-96):
404 → `some true` (available), 200 → `some false` (taken), any other
status, a timeout, or a transport failure → `none` (error). -/
def classify : RdapResponse → Option Bool
  | .status 404 => some true
  | .status 200 => some false
  | .status _ => none
  | .timeout => none
  | .transportError => none

/-- Shared RDAP endpoint for the identitydigital registries. -/
def aiEndpoint : String := "https://rdap.identitydigital.services/rdap/domain/"

/-- Embedding of the `RDAP_ENDPOINTS` table (source lines 23-28). -/
def RDAP_ENDPOINTS : List (String × String) :=
  [("ai", aiEndpoint),
   ("io", aiEndpoint),
   ("com", "https://rdap.verisign.com/com/v1/domain/"),
   ("net", "https://rdap.verisign.com/net/v1/domain/")]

/-- Result of one `check_rdap` call: the classification (or the
`ValueError` message raised for an unknown TLD, as `Except.error`),
together with the list of network requests issued during the call. -/
structure RdapCall where
  result : Except String (Option Bool)
  requests : List String
deriving Repr

/-- Embedding of `check_rdap` (source lines 70-96): resolve the endpoint
for the tld; if none is configured, raise `ValueError` without issuing
any request; otherwise issue one GET to `endpoint ++ domain` and classify
the oracle's response. -/
def check_rdap (oracle : String → RdapResponse) (domain tld : String) : RdapCall :=
  match List.lookup tld RDAP_ENDPOINTS with
  | none => { result := .error ("Unknown TLD: " ++ tld), requests := [] }
  | some endpoint =>
      { result := .ok (classify (oracle (endpoint ++ domain))),
        requests := [endpoint ++ domain] }

/-- Effect of one iteration of the main loop on the engine state: the new
in-memory state, the line appended to each output file (if any), the
checkpoint snapshot persisted by the periodic flush (if any), the network
requests issued, and the propagated exception (if any). -/
structure StepResult where
  state : CheckState
  availLine : Option String
  takenLine : Option String
  persisted : Option CheckState
  requests : List String
  error : Option String
deriving Repr

/-- Embedding of the body of the main loop (source lines 136-163) for one
candidate `word` at index `i`: build the domain, call `check_rdap`,
append to the matching output file and bump the matching counter, bump
`checked`, set `last_index = i + 1`, and persist the checkpoint when
`checked % 100 == 0` (which also stamps `updated_at`). A `ValueError`
from `check_rdap` propagates before any state mutation. -/
def processCandidate (oracle : String → RdapResponse) (tld : String) (now : Nat)
    (word : String) (i : Nat) (s : CheckState) : StepResult :=
  let domain := word ++ "." ++ tld
  match (check_rdap oracle domain tld).result with
  | .error e =>
      { state := s, availLine := none, takenLine := none, persisted := none,
        requests := (check_rdap oracle domain tld).requests, error := some e }
  | .ok result =>
      let s1 :=
        match result with
        | some true => { s with available := s.available + 1 }
        | some false => { s with taken := s.taken + 1 }
        | none => { s with errors := s.errors + 1 }
      let s2 := { s1 with checked := s1.checked + 1, last_index := i + 1 }
      let s3 := if s2.checked % 100 = 0 then save_checkpoint now s2 else s2
      { state := s3,
        availLine := if result = some true then some domain else none,
        takenLine := if result = some false then some domain else none,
        persisted := if s2.checked % 100 = 0 then some s3 else none,
        requests := (check_rdap oracle domain tld).requests,
        error := none }

/-- Observable outcome of running the engine loop: final in-memory state,
lines appended to the two output partitions (in order), checkpoint
snapshots persisted by the periodic flush (in order), network requests
issued (in order), and the exception that aborted the loop, if any. -/
structure RunResult where
  state : CheckState
  availLines : List String
  takenLines : List String
  persists : List CheckState
  requests : List String
  aborted : Option String
deriving Repr

/-- Embedding of the main loop (source lines 131-166) over the remaining
candidates, where `i` is the index of the first element of the list in
the full candidate sequence. Before each candidate the processed-count
limit is checked (`args.limit and checked >= limit`, limit 0 meaning
unlimited); a `ValueError` from `check_rdap` aborts the loop. -/
def runAux (oracle : String → RdapResponse) (tld : String) (limit now : Nat) :
    List String → Nat → CheckState → RunResult
  | [], _, s =>
      { state := s, availLines := [], takenLines := [], persists := [],
        requests := [], aborted := none }
  | word :: rest, i, s =>
      if limit ≠ 0 ∧ limit ≤ s.checked then
        { state := s, availLines := [], takenLines := [], persists := [],
          requests := [], aborted := none }
      else
        let st := processCandidate oracle tld now word i s
        match st.error with
        | some e =>
            { state := st.state, availLines := [], takenLines := [], persists := [],
              requests := st.requests, aborted := some e }
        | none =>
            let r := runAux oracle tld limit now rest (i + 1) st.state
            { state := r.state,
              availLines := st.availLine.toList ++ r.availLines,
              takenLines := st.takenLine.toList ++ r.takenLines,
              persists := st.persisted.toList ++ r.persists,
              requests := st.requests ++ r.requests,
              aborted := r.aborted }

/-- The main loop cut short by an external interruption (KeyboardInterrupt)
observed at the top of a loop iteration: `fuel` is the number of
iterations that complete before the interruption is observed. Iterations
are atomic with respect to cancellation (spec section 5). -/
def runAuxFuel (oracle : String → RdapResponse) (tld : String) (limit now : Nat) :
    Nat → List String → Nat → CheckState → RunResult
  | 0, _, _, s =>
      { state := s, availLines := [], takenLines := [], persists := [],
        requests := [], aborted := none }
  | _ + 1, [], _, s =>
      { state := s, availLines := [], takenLines := [], persists := [],
        requests := [], aborted := none }
  | fuel + 1, word :: rest, i, s =>
      if limit ≠ 0 ∧ limit ≤ s.checked then
        { state := s, availLines := [], takenLines := [], persists := [],
          requests := [], aborted := none }
      else
        let st := processCandidate oracle tld now word i s
        match st.error with
        | some e =>
            { state := st.state, availLines := [], takenLines := [], persists := [],
              requests := st.requests, aborted := some e }
        | none =>
            let r := runAuxFuel oracle tld limit now fuel rest (i + 1) st.state
            { state := r.state,
              availLines := st.availLine.toList ++ r.availLines,
              takenLines := st.takenLine.toList ++ r.takenLines,
              persists := st.persisted.toList ++ r.persists,
              requests := st.requests ++ r.requests,
              aborted := r.aborted }

/-- Observable outcome of one full invocation of `main`. -/
structure MainResult where
  state : CheckState
  availLines : List String
  takenLines : List String
  persists : List CheckState
  requests : List String
deriving Repr

/-- Embedding of `main` (source lines 99-183) for one invocation, given
the candidate list already read from the patterns file (its existence,
checked at lines 111-113, is a precondition of this model): load the
checkpoint, log the resume percentage — which evaluates
`start_index / total_patterns` and raises `ZeroDivisionError` when the
candidate list is empty (line 124) — then run the loop from
`state['last_index']`, and in the `finally` block persist the checkpoint
exactly once more (line 171). A `ValueError` escaping the loop propagates
out of `main` after that final persist. -/
def mainRun (oracle : String → RdapResponse) (tld : String) (limit : Nat)
    (store : String → Option CheckState) (patterns : List String) (now : Nat) :
    Except String MainResult :=
  let state := load_checkpoint store now tld
  let start_index := state.last_index
  if patterns.length = 0 then
    Except.error "ZeroDivisionError"
  else
    let r := runAux oracle tld limit now (patterns.drop start_index) start_index state
    let final := save_checkpoint now r.state
    match r.aborted with
    | some e => Except.error e
    | none =>
        Except.ok { state := final, availLines := r.availLines,
                    takenLines := r.takenLines, persists := r.persists ++ [final],
                    requests := r.requests }

/-- Opening brace character of a JSON object document. -/
def lbrace : Char := Char.ofNat 123

/-- Closing brace character of a JSON object document. -/
def rbrace : Char := Char.ofNat 125

/-- The JSON text produced by `json.dump(state, f, indent=2)` for a
checkpoint dict (source line 67): an object with the dict's keys in
insertion order, the `updated_at` entry present only once
`save_checkpoint` has stamped it. Timestamp values are abstracted to
numbers. -/
def serializeCheckpoint (s : CheckState) : String :=
  String.singleton lbrace
  ++ "\n  \"last_index\": " ++ toString s.last_index
  ++ ",\n  \"checked\": " ++ toString s.checked
  ++ ",\n  \"available\": " ++ toString s.available
  ++ ",\n  \"taken\": " ++ toString s.taken
  ++ ",\n  \"errors\": " ++ toString s.errors
  ++ ",\n  \"started_at\": " ++ toString s.started_at
  ++ (match s.updated_at with
      | some u => ",\n  \"updated_at\": " ++ toString u
      | none => "")
  ++ "\n" ++ String.singleton rbrace

/-- File content written by a completed `save_checkpoint` (source lines
63-67): the serialization of the state with `updated_at` stamped. -/
def save_checkpoint_file (now : Nat) (s : CheckState) : String :=
  serializeCheckpoint (save_checkpoint now s)

/-- The checkpoint-file contents reachable if the process terminates at
an arbitrary point during `save_checkpoint`. The code opens the
checkpoint path with mode `w` (source line 66), which truncates the
existing file immediately — destroying the prior checkpoint regardless of
its content — and `json.dump` then writes the document incrementally, so
a crash leaves some prefix of the final text (the empty file being the
state right after the truncating open). -/
def save_checkpoint_crash_states (now : Nat) (s : CheckState) : List String :=
  (List.range ((save_checkpoint_file now s).length + 1)).map
    (fun k => (save_checkpoint_file now s).take k)

/-- Necessary conditions for `json.load` to accept a file as a JSON
object document: the content is nonempty, starts with the object opener
and ends with the object closer. (`json.dump(..., indent=2)` emits no
trailing whitespace, and the checkpoint's keys and values contain no
brace characters, so every proper prefix of a serialized checkpoint lacks
the final closer.) A content violating these conditions makes `json.load`
raise, i.e. the checkpoint is unparseable. -/
def json_load_ok (content : String) : Bool :=
  decide (0 < content.length) && content.front == lbrace && content.back == rbrace

/-- Seconds between checks: `delay = 60.0 / rate` (source line 108),
modelled over the rationals. -/
def delay (rate : ℚ) : ℚ := 60 / rate

/-- Virtual-clock time at which the n-th lookup (0-based) of a run
starts. The first lookup proceeds immediately; after each check the loop
sleeps for `delay rate` seconds (source line 166), and the check itself
takes `proc n ≥ 0` seconds, so each subsequent lookup starts a full
`delay` plus the processing time after the previous one. -/
def lookupTime (rate : ℚ) (proc : Nat → ℚ) : Nat → ℚ
  | 0 => 0
  | n + 1 => lookupTime rate proc n + proc n + delay rate

/-- Stub registry used by the spec's end-to-end scenario: 404 for
`abcd.ai`, 200 for `efgh.ai`, timeout for anything else (in particular
for `ijkl.ai`). -/
def stubOracle : String → RdapResponse := fun url =>
  if url = aiEndpoint ++ "abcd.ai" then .status 404
  else if url = aiEndpoint ++ "efgh.ai" then .status 200
  else .timeout

/-- Stub registry that answers 404 (available) for every request. -/
def stub404 : String → RdapResponse := fun _ => .status 404

/-- Two engine states that agree on everything the loop ever reads: the
loop and the periodic persist inspect only `last_index`, `checked` and
the three outcome counters, never the timestamps. -/
def sameCounters (s t : CheckState) : Prop :=
  s.last_index = t.last_index ∧ s.checked = t.checked ∧ s.available = t.available ∧
  s.taken = t.taken ∧ s.errors = t.errors

/-! ### Helper lemmas -/

/-- Under a configured tld, `check_rdap` issues exactly one request to
`endpoint ++ domain` and classifies the oracle's response. -/
theorem check_rdap_conf (oracle : String → RdapResponse) (domain tld e : String)
    (hconf : List.lookup tld RDAP_ENDPOINTS = some e) :
    check_rdap oracle domain tld =
      { result := .ok (classify (oracle (e ++ domain))), requests := [e ++ domain] } := by
  simp [check_rdap, hconf]

/-- Under a configured tld, one loop iteration unfolds to the classify /
count / persist sequence of source lines 136-163. -/
theorem processCandidate_conf (oracle : String → RdapResponse) (tld e : String)
    (now : Nat) (word : String) (i : Nat) (s : CheckState)
    (hconf : List.lookup tld RDAP_ENDPOINTS = some e) :
    processCandidate oracle tld now word i s =
      (let result := classify (oracle (e ++ (word ++ "." ++ tld)))
       let s1 :=
         match result with
         | some true => { s with available := s.available + 1 }
         | some false => { s with taken := s.taken + 1 }
         | none => { s with errors := s.errors + 1 }
       let s2 := { s1 with checked := s1.checked + 1, last_index := i + 1 }
       let s3 := if s2.checked % 100 = 0 then save_checkpoint now s2 else s2
       { state := s3,
         availLine := if result = some true then some (word ++ "." ++ tld) else none,
         takenLine := if result = some false then some (word ++ "." ++ tld) else none,
         persisted := if s2.checked % 100 = 0 then some s3 else none,
         requests := [e ++ (word ++ "." ++ tld)],
         error := none }) := by
  simp only [processCandidate, check_rdap_conf oracle (word ++ "." ++ tld) tld e hconf]

/-- Appending a fixed dot-tld suffix to candidate words is injective, so
distinct words yield distinct domain lines. -/
theorem append_dot_tld_inj (tld : String) :
    Function.Injective (fun w : String => w ++ "." ++ tld) := by
  intro a b hab
  have h2 : (a ++ "." ++ tld).data = (b ++ "." ++ tld).data := congrArg String.data hab
  simp only [String.data_append] at h2
  exact String.ext (List.append_cancel_right (List.append_cancel_right h2))

/-- For an unconfigured tld, one loop iteration raises the unknown-TLD
error before mutating any state, writing any line, or issuing any
request. -/
theorem processCandidate_unconf (oracle : String → RdapResponse) (tld : String)
    (now : Nat) (word : String) (i : Nat) (s : CheckState)
    (h : List.lookup tld RDAP_ENDPOINTS = none) :
    processCandidate oracle tld now word i s =
      { state := s, availLine := none, takenLine := none, persisted := none,
        requests := [], error := some ("Unknown TLD: " ++ tld) } := by
  simp [processCandidate, check_rdap, h]

/-- Under a configured tld a loop iteration never raises, increments
`checked` by one, advances `last_index` to `i + 1`, and increments the
sum of the three outcome counters by exactly one. -/
theorem processCandidate_state_conf (oracle : String → RdapResponse) (tld e : String)
    (now : Nat) (word : String) (i : Nat) (s : CheckState)
    (hconf : List.lookup tld RDAP_ENDPOINTS = some e) :
    (processCandidate oracle tld now word i s).error = none ∧
    (processCandidate oracle tld now word i s).state.checked = s.checked + 1 ∧
    (processCandidate oracle tld now word i s).state.last_index = i + 1 ∧
    (processCandidate oracle tld now word i s).state.available +
      (processCandidate oracle tld now word i s).state.taken +
      (processCandidate oracle tld now word i s).state.errors
      = s.available + s.taken + s.errors + 1 := by
  rw [processCandidate_conf oracle tld e now word i s hconf]
  rcases hr : classify (oracle (e ++ (word ++ "." ++ tld))) with _ | b
  · simp only [hr]
    split <;> simp [save_checkpoint] <;> omega
  · cases b <;> simp only [hr] <;> (split <;> simp [save_checkpoint] <;> omega)

/-- Each line a loop iteration appends, if any, is the iteration's own
domain `word ++ "." ++ tld`. -/
theorem processCandidate_lines (oracle : String → RdapResponse) (tld : String)
    (now : Nat) (word : String) (i : Nat) (s : CheckState) :
    ((processCandidate oracle tld now word i s).availLine = none ∨
     (processCandidate oracle tld now word i s).availLine = some (word ++ "." ++ tld)) ∧
    ((processCandidate oracle tld now word i s).takenLine = none ∨
     (processCandidate oracle tld now word i s).takenLine = some (word ++ "." ++ tld)) := by
  simp only [processCandidate]
  cases hres : (check_rdap oracle (word ++ "." ++ tld) tld).result
  · simp
  · simp only []
    constructor
    · split <;> simp
    · split <;> simp

/-- A checkpoint snapshot persisted by an iteration, if any, is that
iteration's final state. -/
theorem processCandidate_persisted (oracle : String → RdapResponse) (tld : String)
    (now : Nat) (word : String) (i : Nat) (s : CheckState) :
    (processCandidate oracle tld now word i s).persisted = none ∨
    (processCandidate oracle tld now word i s).persisted =
      some (processCandidate oracle tld now word i s).state := by
  simp only [processCandidate]
  cases hres : (check_rdap oracle (word ++ "." ++ tld) tld).result
  · simp
  · simp only []
    split <;> simp

/-- Unfolding of the loop on a nonempty list under a configured tld when
the limit does not stop it: one iteration, then the loop on the rest. -/
theorem runAux_cons_conf (oracle : String → RdapResponse) (tld e : String)
    (limit now : Nat) (word : String) (ws : List String) (i : Nat) (s : CheckState)
    (hconf : List.lookup tld RDAP_ENDPOINTS = some e)
    (hnb : ¬(limit ≠ 0 ∧ limit ≤ s.checked)) :
    runAux oracle tld limit now (word :: ws) i s =
      { state := (runAux oracle tld limit now ws (i + 1)
          (processCandidate oracle tld now word i s).state).state,
        availLines := (processCandidate oracle tld now word i s).availLine.toList ++
          (runAux oracle tld limit now ws (i + 1)
            (processCandidate oracle tld now word i s).state).availLines,
        takenLines := (processCandidate oracle tld now word i s).takenLine.toList ++
          (runAux oracle tld limit now ws (i + 1)
            (processCandidate oracle tld now word i s).state).takenLines,
        persists := (processCandidate oracle tld now word i s).persisted.toList ++
          (runAux oracle tld limit now ws (i + 1)
            (processCandidate oracle tld now word i s).state).persists,
        requests := (processCandidate oracle tld now word i s).requests ++
          (runAux oracle tld limit now ws (i + 1)
            (processCandidate oracle tld now word i s).state).requests,
        aborted := (runAux oracle tld limit now ws (i + 1)
          (processCandidate oracle tld now word i s).state).aborted } := by
  have herr := (processCandidate_state_conf oracle tld e now word i s hconf).1
  simp only [runAux, if_neg hnb, herr]

/-- Unfolding of the interrupted loop with positive fuel, analogous to
`runAux_cons_conf`. -/
theorem runAuxFuel_cons_conf (oracle : String → RdapResponse) (tld e : String)
    (limit now fuel : Nat) (word : String) (ws : List String) (i : Nat) (s : CheckState)
    (hconf : List.lookup tld RDAP_ENDPOINTS = some e)
    (hnb : ¬(limit ≠ 0 ∧ limit ≤ s.checked)) :
    runAuxFuel oracle tld limit now (fuel + 1) (word :: ws) i s =
      { state := (runAuxFuel oracle tld limit now fuel ws (i + 1)
          (processCandidate oracle tld now word i s).state).state,
        availLines := (processCandidate oracle tld now word i s).availLine.toList ++
          (runAuxFuel oracle tld limit now fuel ws (i + 1)
            (processCandidate oracle tld now word i s).state).availLines,
        takenLines := (processCandidate oracle tld now word i s).takenLine.toList ++
          (runAuxFuel oracle tld limit now fuel ws (i + 1)
            (processCandidate oracle tld now word i s).state).takenLines,
        persists := (processCandidate oracle tld now word i s).persisted.toList ++
          (runAuxFuel oracle tld limit now fuel ws (i + 1)
            (processCandidate oracle tld now word i s).state).persists,
        requests := (processCandidate oracle tld now word i s).requests ++
          (runAuxFuel oracle tld limit now fuel ws (i + 1)
            (processCandidate oracle tld now word i s).state).requests,
        aborted := (runAuxFuel oracle tld limit now fuel ws (i + 1)
          (processCandidate oracle tld now word i s).state).aborted } := by
  have herr := (processCandidate_state_conf oracle tld e now word i s hconf).1
  simp only [runAuxFuel, if_neg hnb, herr]

/-- One iteration reads only the counter fields of the state: states
agreeing on those produce the same outputs and states that again agree. -/
theorem processCandidate_congr (oracle : String → RdapResponse) (tld : String)
    (now : Nat) (word : String) (i : Nat) (s t : CheckState)
    (h : sameCounters s t) :
    (processCandidate oracle tld now word i s).availLine =
      (processCandidate oracle tld now word i t).availLine ∧
    (processCandidate oracle tld now word i s).takenLine =
      (processCandidate oracle tld now word i t).takenLine ∧
    (processCandidate oracle tld now word i s).requests =
      (processCandidate oracle tld now word i t).requests ∧
    (processCandidate oracle tld now word i s).error =
      (processCandidate oracle tld now word i t).error ∧
    sameCounters (processCandidate oracle tld now word i s).state
      (processCandidate oracle tld now word i t).state := by
  obtain ⟨hl, hc, ha, ht, he⟩ := h
  simp only [processCandidate]
  cases hres : (check_rdap oracle (word ++ "." ++ tld) tld).result
  · exact ⟨rfl, rfl, rfl, rfl, hl, hc, ha, ht, he⟩
  · simp only []
    rename_i result
    rcases result with _ | b
    · simp only [hc]
      split <;> simp [sameCounters, save_checkpoint, hl, hc, ha, ht, he]
    · cases b <;> simp only [hc] <;>
        (split <;> simp [sameCounters, save_checkpoint, hl, hc, ha, ht, he])

/-- The whole loop reads only the counter fields of its starting state:
starting it from states agreeing on those (for example a state and its
`save_checkpoint`-stamped copy) yields the same lines, requests and abort
behaviour, and final states that again agree. -/
theorem runAux_congr (oracle : String → RdapResponse) (tld : String) (limit now : Nat) :
    ∀ (ws : List String) (i : Nat) (s t : CheckState), sameCounters s t →
    (runAux oracle tld limit now ws i s).availLines =
      (runAux oracle tld limit now ws i t).availLines ∧
    (runAux oracle tld limit now ws i s).takenLines =
      (runAux oracle tld limit now ws i t).takenLines ∧
    (runAux oracle tld limit now ws i s).requests =
      (runAux oracle tld limit now ws i t).requests ∧
    (runAux oracle tld limit now ws i s).aborted =
      (runAux oracle tld limit now ws i t).aborted ∧
    sameCounters (runAux oracle tld limit now ws i s).state
      (runAux oracle tld limit now ws i t).state
  | [], i, s, t, h => ⟨rfl, rfl, rfl, rfl, h⟩
  | word :: ws, i, s, t, h => by
    obtain ⟨hal, htl, hrq, her, hst⟩ :=
      processCandidate_congr oracle tld now word i s t h
    by_cases hb : limit ≠ 0 ∧ limit ≤ s.checked
    · have hb2 : limit ≠ 0 ∧ limit ≤ t.checked := ⟨hb.1, h.2.1 ▸ hb.2⟩
      simp only [runAux, if_pos hb, if_pos hb2]
      exact ⟨trivial, trivial, trivial, trivial, h⟩
    · have hb2 : ¬(limit ≠ 0 ∧ limit ≤ t.checked) := by
        rw [show t.checked = s.checked from (h.2.1).symm]
        exact hb
      simp only [runAux, if_neg hb, if_neg hb2]
      cases hes : (processCandidate oracle tld now word i s).error with
      | some e =>
        have het : (processCandidate oracle tld now word i t).error = some e :=
          her ▸ hes
        simp only [hes, het, hrq]
        exact ⟨trivial, trivial, trivial, trivial, hst⟩
      | none =>
        have het : (processCandidate oracle tld now word i t).error = none :=
          her ▸ hes
        simp only [hes, het]
        obtain ⟨ih1, ih2, ih3, ih4, ih5⟩ :=
          runAux_congr oracle tld limit now ws (i + 1)
            (processCandidate oracle tld now word i s).state
            (processCandidate oracle tld now word i t).state hst
        exact ⟨by simp [hal, ih1], by simp [htl, ih2], by simp [hrq, ih3], ih4, ih5⟩

/-- The lines a run appends to each partition form a subsequence of the
domains of the candidates it iterated over, in order. -/
theorem runAux_lines_sublist (oracle : String → RdapResponse) (tld : String)
    (limit now : Nat) :
    ∀ (ws : List String) (i : Nat) (s : CheckState),
    (runAux oracle tld limit now ws i s).availLines.Sublist
      (ws.map (fun w => w ++ "." ++ tld)) ∧
    (runAux oracle tld limit now ws i s).takenLines.Sublist
      (ws.map (fun w => w ++ "." ++ tld))
  | [], i, s => ⟨List.nil_sublist _, List.nil_sublist _⟩
  | word :: ws, i, s => by
    obtain ⟨hav, htk⟩ := processCandidate_lines oracle tld now word i s
    by_cases hb : limit ≠ 0 ∧ limit ≤ s.checked
    · simp only [runAux, if_pos hb]
      exact ⟨List.nil_sublist _, List.nil_sublist _⟩
    · simp only [runAux, if_neg hb]
      cases hes : (processCandidate oracle tld now word i s).error with
      | some e =>
        simp only [hes]
        exact ⟨List.nil_sublist _, List.nil_sublist _⟩
      | none =>
        simp only [hes]
        obtain ⟨ih1, ih2⟩ := runAux_lines_sublist oracle tld limit now ws (i + 1)
          (processCandidate oracle tld now word i s).state
        constructor
        · simp only [List.map_cons]
          rcases hav with hx | hx <;> simp only [hx, Option.toList]
          · exact List.sublist_cons_of_sublist _ ih1
          · exact List.Sublist.cons₂ _ ih1
        · simp only [List.map_cons]
          rcases htk with hx | hx <;> simp only [hx, Option.toList]
          · exact List.sublist_cons_of_sublist _ ih2
          · exact List.Sublist.cons₂ _ ih2

/-- Decomposition of an uninterrupted no-limit run into the part done
before an interruption after `k` iterations and a continuation of the
loop from the interrupted run's final `last_index` and state: the
interrupted run stops with `last_index = i + min k ws.length`, and the
full run's final state and appended lines are exactly those of the
interrupted run followed by the continuation. -/
theorem runAux_decompose (oracle : String → RdapResponse) (tld e : String) (now : Nat)
    (hconf : List.lookup tld RDAP_ENDPOINTS = some e) :
    ∀ (k : Nat) (ws : List String) (i : Nat) (s : CheckState), s.last_index = i →
    (runAuxFuel oracle tld 0 now k ws i s).state.last_index = i + min k ws.length ∧
    (runAux oracle tld 0 now ws i s).state =
      (runAux oracle tld 0 now (ws.drop (min k ws.length)) (i + min k ws.length)
        (runAuxFuel oracle tld 0 now k ws i s).state).state ∧
    (runAux oracle tld 0 now ws i s).availLines =
      (runAuxFuel oracle tld 0 now k ws i s).availLines ++
      (runAux oracle tld 0 now (ws.drop (min k ws.length)) (i + min k ws.length)
        (runAuxFuel oracle tld 0 now k ws i s).state).availLines ∧
    (runAux oracle tld 0 now ws i s).takenLines =
      (runAuxFuel oracle tld 0 now k ws i s).takenLines ++
      (runAux oracle tld 0 now (ws.drop (min k ws.length)) (i + min k ws.length)
        (runAuxFuel oracle tld 0 now k ws i s).state).takenLines
  | 0, ws, i, s, hli => by
    simp only [runAuxFuel, Nat.zero_min, Nat.add_zero, List.drop_zero, List.nil_append]
    refine ⟨hli, ?_, ?_, ?_⟩ <;> trivial
  | k + 1, [], i, s, hli => by
    simp only [runAuxFuel, List.length_nil, Nat.min_zero, Nat.add_zero, List.drop_nil,
      List.nil_append]
    refine ⟨hli, ?_, ?_, ?_⟩ <;> trivial
  | k + 1, word :: ws, i, s, hli => by
    have hnb : ¬((0 : Nat) ≠ 0 ∧ (0 : Nat) ≤ s.checked) := by simp
    have hst := processCandidate_state_conf oracle tld e now word i s hconf
    obtain ⟨ih1, ih2, ih3, ih4⟩ := runAux_decompose oracle tld e now hconf k ws (i + 1)
      (processCandidate oracle tld now word i s).state hst.2.2.1
    rw [runAux_cons_conf oracle tld e 0 now word ws i s hconf hnb,
        runAuxFuel_cons_conf oracle tld e 0 now k word ws i s hconf hnb]
    have hmin : min (k + 1) (word :: ws).length = min k ws.length + 1 := by
      simp [List.length_cons, Nat.succ_min_succ]
    have hidx : i + (min k ws.length + 1) = i + 1 + min k ws.length := by omega
    refine ⟨?_, ?_, ?_, ?_⟩
    · simp only [hmin]
      rw [show i + (min k ws.length + 1) = i + 1 + min k ws.length from hidx]
      exact ih1
    · simp only [hmin, List.drop_succ_cons]
      rw [hidx]
      exact ih2
    · simp only [hmin, List.drop_succ_cons]
      rw [hidx]
      simp only [ih3, List.append_assoc]
    · simp only [hmin, List.drop_succ_cons]
      rw [hidx]
      simp only [ih4, List.append_assoc]

/-- Every state and persisted snapshot reachable by the loop from a state
satisfying `checked = available + taken + errors` satisfies it too. -/
theorem runAux_inv1 (oracle : String → RdapResponse) (tld : String) (limit now : Nat) :
    ∀ (ws : List String) (i : Nat) (s : CheckState),
    s.checked = s.available + s.taken + s.errors →
    (runAux oracle tld limit now ws i s).state.checked =
      (runAux oracle tld limit now ws i s).state.available +
      (runAux oracle tld limit now ws i s).state.taken +
      (runAux oracle tld limit now ws i s).state.errors ∧
    ∀ p ∈ (runAux oracle tld limit now ws i s).persists,
      p.checked = p.available + p.taken + p.errors
  | [], i, s, h => ⟨h, by simp [runAux]⟩
  | word :: ws, i, s, h => by
    by_cases hb : limit ≠ 0 ∧ limit ≤ s.checked
    · simp only [runAux, if_pos hb]
      exact ⟨h, by simp⟩
    · cases hconf : List.lookup tld RDAP_ENDPOINTS with
      | none =>
        simp only [runAux, if_neg hb,
          processCandidate_unconf oracle tld now word i s hconf]
        exact ⟨h, by simp⟩
      | some e =>
        obtain ⟨herr, hck, hli, hsum⟩ :=
          processCandidate_state_conf oracle tld e now word i s hconf
        obtain ⟨ih1, ih2⟩ := runAux_inv1 oracle tld limit now ws (i + 1)
          (processCandidate oracle tld now word i s).state (by omega)
        simp only [runAux, if_neg hb, herr]
        refine ⟨ih1, ?_⟩
        intro p hp
        simp only [List.mem_append] at hp
        rcases hp with hp | hp
        · rcases processCandidate_persisted oracle tld now word i s with hper | hper <;>
            simp only [hper, Option.toList_none, Option.toList_some] at hp
          · exact absurd hp (List.not_mem_nil p)
          · rw [List.mem_singleton] at hp
            subst hp
            omega
        · exact ih2 p hp

/-- Without a limit, starting from a state aligned with its position and
satisfying `last_index = checked`, the final state and every persisted
snapshot satisfy `last_index = checked`. -/
theorem runAux_inv2 (oracle : String → RdapResponse) (tld : String) (now : Nat) :
    ∀ (ws : List String) (i : Nat) (s : CheckState),
    s.last_index = i → s.checked = i →
    (runAux oracle tld 0 now ws i s).state.last_index =
      (runAux oracle tld 0 now ws i s).state.checked ∧
    ∀ p ∈ (runAux oracle tld 0 now ws i s).persists, p.last_index = p.checked
  | [], i, s, ha, hc => ⟨by simp only [runAux]; rw [ha, hc], by simp [runAux]⟩
  | word :: ws, i, s, ha, hc => by
    have hnb : ¬((0 : Nat) ≠ 0 ∧ (0 : Nat) ≤ s.checked) := by simp
    cases hconf : List.lookup tld RDAP_ENDPOINTS with
    | none =>
      simp only [runAux, if_neg hnb,
        processCandidate_unconf oracle tld now word i s hconf]
      exact ⟨by rw [ha, hc], by simp⟩
    | some e =>
      obtain ⟨herr, hck, hli, hsum⟩ :=
        processCandidate_state_conf oracle tld e now word i s hconf
      obtain ⟨ih1, ih2⟩ := runAux_inv2 oracle tld now ws (i + 1)
        (processCandidate oracle tld now word i s).state (by omega) (by omega)
      simp only [runAux, if_neg hnb, herr]
      refine ⟨ih1, ?_⟩
      intro p hp
      simp only [List.mem_append] at hp
      rcases hp with hp | hp
      · rcases processCandidate_persisted oracle tld now word i s with hper | hper <;>
          simp only [hper, Option.toList_none, Option.toList_some] at hp
        · exact absurd hp (List.not_mem_nil p)
        · rw [List.mem_singleton] at hp
          subst hp
          omega
      · exact ih2 p hp

/-- With a nonzero limit the loop never drives `checked` past
`max s.checked limit`: it refuses to start an iteration once `checked`
has reached the limit. -/
theorem runAux_limit_bound (oracle : String → RdapResponse) (tld : String)
    (limit now : Nat) (hl : limit ≠ 0) :
    ∀ (ws : List String) (i : Nat) (s : CheckState),
    (runAux oracle tld limit now ws i s).state.checked ≤ max s.checked limit
  | [], i, s => by
    simp only [runAux]
    exact le_max_left _ _
  | word :: ws, i, s => by
    by_cases hb : limit ≠ 0 ∧ limit ≤ s.checked
    · simp only [runAux, if_pos hb]
      exact le_max_left _ _
    · have hlt : s.checked < limit := by
        rcases Nat.lt_or_ge s.checked limit with h | h
        · exact h
        · exact absurd ⟨hl, h⟩ hb
      cases hconf : List.lookup tld RDAP_ENDPOINTS with
      | none =>
        simp only [runAux, if_neg hb,
          processCandidate_unconf oracle tld now word i s hconf]
        exact le_max_left _ _
      | some e =>
        obtain ⟨herr, hck, hli, hsum⟩ :=
          processCandidate_state_conf oracle tld e now word i s hconf
        have ih := runAux_limit_bound oracle tld limit now hl ws (i + 1)
          (processCandidate oracle tld now word i s).state
        simp only [runAux, if_neg hb, herr]
        have hmax : max (processCandidate oracle tld now word i s).state.checked limit
            = limit := by omega
        omega

/-! ### Claims -/

/-- Claim C9: when no checkpoint exists for the scope, `load_checkpoint`
returns a freshly zeroed state (lastIndex and all four counters 0) with
`started_at` set to the current time, and never fails on absence (it is a
total function whose absence branch is this default). -/
theorem load_checkpoint_absence (store : String → Option CheckState) (now : Nat)
    (tld : String) (habs : store (checkpoint_file tld) = none) :
    load_checkpoint store now tld =
      { last_index := 0, checked := 0, available := 0, taken := 0, errors := 0,
        started_at := now, updated_at := none } := by
  simp [load_checkpoint, habs, freshState]

/-- Witness for C9 at a concrete empty store. -/
theorem load_checkpoint_absence_witness :
    (fun _ => (none : Option CheckState)) (checkpoint_file "ai") = none ∧
    load_checkpoint (fun _ => none) 5 "ai" =
      { last_index := 0, checked := 0, available := 0, taken := 0, errors := 0,
        started_at := 5, updated_at := none } :=
  ⟨rfl, load_checkpoint_absence (fun _ => none) 5 "ai" rfl⟩

/-- Claim C7: for a registry identifier with no configured endpoint,
`check_rdap` fails with the unknown-TLD `ValueError` and issues no
network request; for every configured identifier the call returns a
classification (`Except.ok`), so the error branch is unreachable. -/
theorem unknown_registry_fail_fast (oracle : String → RdapResponse) (domain tld : String) :
    (List.lookup tld RDAP_ENDPOINTS = none →
       (check_rdap oracle domain tld).result = .error ("Unknown TLD: " ++ tld) ∧
       (check_rdap oracle domain tld).requests = []) ∧
    (∀ e, List.lookup tld RDAP_ENDPOINTS = some e →
       (check_rdap oracle domain tld).result = .ok (classify (oracle (e ++ domain))) ∧
       (check_rdap oracle domain tld).requests = [e ++ domain]) := by
  refine ⟨fun h => ?_, fun e h => ?_⟩
  · simp [check_rdap, h]
  · simp [check_rdap, h]

/-- Witness for C7: `zz` is unconfigured and fails fast with no request;
`ai` is configured and the call returns a classification. -/
theorem unknown_registry_fail_fast_witness :
    List.lookup "zz" RDAP_ENDPOINTS = none ∧
    (check_rdap stubOracle "x.zz" "zz").result = .error "Unknown TLD: zz" ∧
    (check_rdap stubOracle "x.zz" "zz").requests = [] ∧
    List.lookup "ai" RDAP_ENDPOINTS = some aiEndpoint ∧
    (check_rdap stubOracle "abcd.ai" "ai").result =
      .ok (classify (stubOracle (aiEndpoint ++ "abcd.ai"))) :=
  ⟨by decide,
   ((unknown_registry_fail_fast stubOracle "x.zz" "zz").1 (by decide)).1,
   ((unknown_registry_fail_fast stubOracle "x.zz" "zz").1 (by decide)).2,
   by decide,
   ((unknown_registry_fail_fast stubOracle "abcd.ai" "ai").2 aiEndpoint (by decide)).1⟩

set_option maxRecDepth 4000 in
/-- Claim C4 (code bug): `save_checkpoint` writes the checkpoint in place
(`open(path, 'w')` followed by `json.dump`), so the empty file — the
state left by a crash immediately after the truncating open — is a
reachable crash outcome, and it is not a parseable JSON object, while the
completed write is. The prior checkpoint, whatever it was, is destroyed
by the truncation, so a crash mid-persist does corrupt the checkpoint,
contradicting the claimed atomicity. -/
theorem save_checkpoint_crash_unparseable :
    "" ∈ save_checkpoint_crash_states 7 (freshState 3) ∧
    json_load_ok "" = false ∧
    json_load_ok (save_checkpoint_file 7 (freshState 3)) = true := by
  refine ⟨List.mem_map.2 ⟨0, List.mem_range.2 (Nat.succ_pos _), ?_⟩, rfl, by decide⟩
  decide

/-- Claim C8: with a configured rate of `rate` requests per minute, at
least `60 / rate` time units elapse between consecutive lookups (the
first lookup proceeds immediately at time 0, with no burst allowance),
and with rate 30 five consecutive lookups span at least 8 seconds. -/
theorem rate_pacing (rate : ℚ) (proc : Nat → ℚ) (hrate : 0 < rate)
    (hproc : ∀ j, 0 ≤ proc j) :
    (∀ n, 60 / rate ≤ lookupTime rate proc (n + 1) - lookupTime rate proc n) ∧
    (rate = 30 → 8 ≤ lookupTime rate proc 4 - lookupTime rate proc 0) := by
  refine ⟨fun n => ?_, fun h => ?_⟩
  · have := hproc n
    simp only [lookupTime, delay]
    linarith
  · subst h
    have h0 := hproc 0
    have h1 := hproc 1
    have h2 := hproc 2
    have h3 := hproc 3
    have hd : delay 30 = 2 := by norm_num [delay]
    simp only [lookupTime, hd]
    linarith

/-- Witness for C8 with rate 30 and zero processing time. -/
theorem rate_pacing_witness :
    (0 : ℚ) < 30 ∧
    (8 : ℚ) ≤ lookupTime 30 (fun _ => 0) 4 - lookupTime 30 (fun _ => 0) 0 :=
  ⟨by norm_num,
   (rate_pacing 30 (fun _ => 0) (by norm_num) (fun _ => le_refl 0)).2 rfl⟩

/-- Claim C1 (amended): running the pipeline from a fresh start, stopping
it after any number of completed iterations, persisting the checkpoint,
then re-invoking it over the same CandidateSource (resuming at the
persisted `last_index`) and running to completion yields the same final
counters (checked, available, taken, errors) as a single uninterrupted
run over the full sequence, and the two runs together append to each
ResultSink partition exactly the lines of the uninterrupted run; provided
the candidate values are pairwise distinct, no candidate value appears
twice in any partition. (The distinctness proviso is the amendment: a
candidate list that repeats a value makes even an uninterrupted run
append the same domain line twice — see the counterexample.) -/
theorem resume_idempotence_amended (oracle : String → RdapResponse) (tld e : String)
    (patterns : List String) (k now : Nat)
    (hconf : List.lookup tld RDAP_ENDPOINTS = some e) :
    (let s0 := freshState now
     let r1 := runAuxFuel oracle tld 0 now k patterns 0 s0
     let s1 := save_checkpoint now r1.state
     let r2 := runAux oracle tld 0 now (patterns.drop s1.last_index) s1.last_index s1
     let rf := runAux oracle tld 0 now patterns 0 s0
     (r2.state.checked = rf.state.checked ∧ r2.state.available = rf.state.available ∧
      r2.state.taken = rf.state.taken ∧ r2.state.errors = rf.state.errors) ∧
     (r1.availLines ++ r2.availLines = rf.availLines ∧
      r1.takenLines ++ r2.takenLines = rf.takenLines) ∧
     (patterns.Nodup →
       (r1.availLines ++ r2.availLines).Nodup ∧
       (r1.takenLines ++ r2.takenLines).Nodup)) := by
  obtain ⟨hA1, hA2, hA3, hA4⟩ :=
    runAux_decompose oracle tld e now hconf k patterns 0 (freshState now) rfl
  rw [Nat.zero_add] at hA1 hA2 hA3 hA4
  have hsame : sameCounters
      (runAuxFuel oracle tld 0 now k patterns 0 (freshState now)).state
      (save_checkpoint now (runAuxFuel oracle tld 0 now k patterns 0 (freshState now)).state) := by
    simp [sameCounters, save_checkpoint]
  obtain ⟨hC1, hC2, hC3, hC4, hC5⟩ :=
    runAux_congr oracle tld 0 now
      (patterns.drop (min k patterns.length)) (min k patterns.length)
      (runAuxFuel oracle tld 0 now k patterns 0 (freshState now)).state
      (save_checkpoint now (runAuxFuel oracle tld 0 now k patterns 0 (freshState now)).state)
      hsame
  dsimp only
  have hli : (save_checkpoint now
      (runAuxFuel oracle tld 0 now k patterns 0 (freshState now)).state).last_index =
      min k patterns.length := by
    simpa [save_checkpoint] using hA1
  rw [hli]
  have hlineq :
      (runAuxFuel oracle tld 0 now k patterns 0 (freshState now)).availLines ++
        (runAux oracle tld 0 now (patterns.drop (min k patterns.length))
          (min k patterns.length)
          (save_checkpoint now
            (runAuxFuel oracle tld 0 now k patterns 0 (freshState now)).state)).availLines =
      (runAux oracle tld 0 now patterns 0 (freshState now)).availLines := by
    rw [hA3, hC1]
  have htkeq :
      (runAuxFuel oracle tld 0 now k patterns 0 (freshState now)).takenLines ++
        (runAux oracle tld 0 now (patterns.drop (min k patterns.length))
          (min k patterns.length)
          (save_checkpoint now
            (runAuxFuel oracle tld 0 now k patterns 0 (freshState now)).state)).takenLines =
      (runAux oracle tld 0 now patterns 0 (freshState now)).takenLines := by
    rw [hA4, hC2]
  refine ⟨⟨?_, ?_, ?_, ?_⟩, ⟨hlineq, htkeq⟩, fun hnd => ⟨?_, ?_⟩⟩
  · rw [hA2]; exact hC5.2.1.symm
  · rw [hA2]; exact hC5.2.2.1.symm
  · rw [hA2]; exact hC5.2.2.2.1.symm
  · rw [hA2]; exact hC5.2.2.2.2.symm
  · rw [hlineq]
    exact ((hnd.map (append_dot_tld_inj tld)).sublist
      (runAux_lines_sublist oracle tld 0 now patterns 0 (freshState now)).1)
  · rw [htkeq]
    exact ((hnd.map (append_dot_tld_inj tld)).sublist
      (runAux_lines_sublist oracle tld 0 now patterns 0 (freshState now)).2)

/-- Witness for C1 at a concrete scenario: candidates `abcd`, `efgh` on
tld `ai`, interrupted after one iteration, resumed, compared with the
uninterrupted run. -/
theorem resume_idempotence_amended_witness :
    List.lookup "ai" RDAP_ENDPOINTS = some aiEndpoint ∧
    (["abcd", "efgh"] : List String).Nodup ∧
    (let s0 := freshState 0
     let r1 := runAuxFuel stubOracle "ai" 0 0 1 ["abcd", "efgh"] 0 s0
     let s1 := save_checkpoint 0 r1.state
     let r2 := runAux stubOracle "ai" 0 0 (["abcd", "efgh"].drop s1.last_index)
       s1.last_index s1
     let rf := runAux stubOracle "ai" 0 0 ["abcd", "efgh"] 0 s0
     (r2.state.checked = rf.state.checked ∧ r2.state.available = rf.state.available ∧
      r2.state.taken = rf.state.taken ∧ r2.state.errors = rf.state.errors) ∧
     (r1.availLines ++ r2.availLines = rf.availLines ∧
      r1.takenLines ++ r2.takenLines = rf.takenLines) ∧
     ((r1.availLines ++ r2.availLines).Nodup ∧
      (r1.takenLines ++ r2.takenLines).Nodup)) := by
  refine ⟨by decide, by decide, ?_⟩
  have h := resume_idempotence_amended stubOracle "ai" aiEndpoint ["abcd", "efgh"] 1 0
    (by decide)
  exact ⟨h.1, h.2.1, h.2.2 (by decide)⟩

/-- Counterexample to C1 as frozen: with the candidate list
`[abcd, abcd]` (a repeated value) and a registry answering 404 to every
request, stopping after one iteration and resuming to completion leaves
the value `abcd.ai` appearing twice in the Available partition — exactly
as the uninterrupted run would, so the "no candidate value appears twice
in any ResultSink partition" clause fails for candidate lists with
duplicate values. -/
theorem resume_idempotence_counterexample :
    (let s0 := freshState 0
     let r1 := runAuxFuel stub404 "ai" 0 0 1 ["abcd", "abcd"] 0 s0
     let s1 := save_checkpoint 0 r1.state
     let r2 := runAux stub404 "ai" 0 0 (["abcd", "abcd"].drop s1.last_index)
       s1.last_index s1
     (r1.availLines ++ r2.availLines).count "abcd.ai" = 2) := by decide

/-- Claim C2: the loop body preserves `checked = available + taken + errors`
(first conjunct, one iteration; the body also preserves it trivially when
it raises, since it then leaves the state untouched); every reachable
final state and every periodically persisted snapshot of a run started
from a state satisfying the invariant satisfies it (second conjunct, any
limit); absent use of the processed-count limit and starting from an
aligned state satisfying `last_index = checked`, the final state and
every persisted snapshot satisfy `last_index = checked` (third conjunct);
and the unconditional final persist writes a record with the same
counters as the in-memory state, so it observes the same invariants
(fourth conjunct). -/
theorem counter_invariant (oracle : String → RdapResponse) (tld : String)
    (limit now : Nat) (ws : List String) (word : String) (i : Nat) (s : CheckState)
    (h1 : s.checked = s.available + s.taken + s.errors) :
    (processCandidate oracle tld now word i s).state.checked =
      (processCandidate oracle tld now word i s).state.available +
      (processCandidate oracle tld now word i s).state.taken +
      (processCandidate oracle tld now word i s).state.errors ∧
    ((runAux oracle tld limit now ws i s).state.checked =
      (runAux oracle tld limit now ws i s).state.available +
      (runAux oracle tld limit now ws i s).state.taken +
      (runAux oracle tld limit now ws i s).state.errors ∧
     ∀ p ∈ (runAux oracle tld limit now ws i s).persists,
       p.checked = p.available + p.taken + p.errors) ∧
    (s.last_index = i → s.checked = i →
      (runAux oracle tld 0 now ws i s).state.last_index =
        (runAux oracle tld 0 now ws i s).state.checked ∧
      ∀ p ∈ (runAux oracle tld 0 now ws i s).persists, p.last_index = p.checked) ∧
    (∀ t : CheckState, sameCounters t (save_checkpoint now t)) := by
  refine ⟨?_, runAux_inv1 oracle tld limit now ws i s h1,
    fun ha hc => runAux_inv2 oracle tld now ws i s ha hc,
    fun t => by simp [sameCounters, save_checkpoint]⟩
  cases hconf : List.lookup tld RDAP_ENDPOINTS with
  | none =>
    rw [processCandidate_unconf oracle tld now word i s hconf]
    exact h1
  | some e =>
    obtain ⟨herr, hck, hli, hsum⟩ :=
      processCandidate_state_conf oracle tld e now word i s hconf
    omega

/-- Witness for C2 on a concrete two-candidate run from the fresh state. -/
theorem counter_invariant_witness :
    (freshState 0).checked =
      (freshState 0).available + (freshState 0).taken + (freshState 0).errors ∧
    (runAux stubOracle "ai" 0 0 ["abcd", "efgh"] 0 (freshState 0)).state.checked =
      (runAux stubOracle "ai" 0 0 ["abcd", "efgh"] 0 (freshState 0)).state.available +
      (runAux stubOracle "ai" 0 0 ["abcd", "efgh"] 0 (freshState 0)).state.taken +
      (runAux stubOracle "ai" 0 0 ["abcd", "efgh"] 0 (freshState 0)).state.errors ∧
    (runAux stubOracle "ai" 0 0 ["abcd", "efgh"] 0 (freshState 0)).state.last_index =
      (runAux stubOracle "ai" 0 0 ["abcd", "efgh"] 0 (freshState 0)).state.checked :=
  ⟨rfl,
   ((counter_invariant stubOracle "ai" 0 0 ["abcd", "efgh"] "abcd" 0
      (freshState 0) rfl).2.1).1,
   ((counter_invariant stubOracle "ai" 0 0 ["abcd", "efgh"] "abcd" 0
      (freshState 0) rfl).2.2.1 rfl rfl).1⟩

/-- Claim C3: a 404 response appends exactly the domain line to the
Available partition and increments `available`; a 200 response appends it
to the Taken partition and increments `taken`; a timeout, transport
failure, or any other status writes no line and increments `errors`;
`checked` is incremented in every case; and the spec's end-to-end
scenario (candidates abcd, efgh, ijkl on tld `ai` with stub responses
404, 200, timeout from a fresh start) ends with Available = [abcd.ai],
Taken = [efgh.ai], counters checked 3 / available 1 / taken 1 / errors 1
and lastIndex 3. -/
theorem classification_mapping (oracle : String → RdapResponse) (tld e word : String)
    (i now : Nat) (s : CheckState)
    (hconf : List.lookup tld RDAP_ENDPOINTS = some e) :
    ((oracle (e ++ (word ++ "." ++ tld)) = .status 404 →
        (processCandidate oracle tld now word i s).availLine = some (word ++ "." ++ tld) ∧
        (processCandidate oracle tld now word i s).takenLine = none ∧
        (processCandidate oracle tld now word i s).state.available = s.available + 1 ∧
        (processCandidate oracle tld now word i s).state.taken = s.taken ∧
        (processCandidate oracle tld now word i s).state.errors = s.errors) ∧
     (oracle (e ++ (word ++ "." ++ tld)) = .status 200 →
        (processCandidate oracle tld now word i s).takenLine = some (word ++ "." ++ tld) ∧
        (processCandidate oracle tld now word i s).availLine = none ∧
        (processCandidate oracle tld now word i s).state.taken = s.taken + 1 ∧
        (processCandidate oracle tld now word i s).state.available = s.available ∧
        (processCandidate oracle tld now word i s).state.errors = s.errors) ∧
     (classify (oracle (e ++ (word ++ "." ++ tld))) = none →
        (processCandidate oracle tld now word i s).availLine = none ∧
        (processCandidate oracle tld now word i s).takenLine = none ∧
        (processCandidate oracle tld now word i s).state.errors = s.errors + 1 ∧
        (processCandidate oracle tld now word i s).state.available = s.available ∧
        (processCandidate oracle tld now word i s).state.taken = s.taken) ∧
     (processCandidate oracle tld now word i s).state.checked = s.checked + 1) ∧
    mainRun stubOracle "ai" 0 (fun _ => none) ["abcd", "efgh", "ijkl"] 0 =
      Except.ok { state := ⟨3, 3, 1, 1, 1, 0, some 0⟩,
                  availLines := ["abcd.ai"], takenLines := ["efgh.ai"],
                  persists := [⟨3, 3, 1, 1, 1, 0, some 0⟩],
                  requests := [aiEndpoint ++ "abcd.ai", aiEndpoint ++ "efgh.ai",
                               aiEndpoint ++ "ijkl.ai"] } := by
  have hpc := processCandidate_conf oracle tld e now word i s hconf
  refine ⟨⟨fun h404 => ?_, fun h200 => ?_, fun herrc => ?_,
    (processCandidate_state_conf oracle tld e now word i s hconf).2.1⟩, rfl⟩
  · rw [hpc]
    simp only [h404, classify]
    refine ⟨by simp, by simp, ?_, ?_, ?_⟩ <;> (split <;> simp [save_checkpoint])
  · rw [hpc]
    simp only [h200, classify]
    refine ⟨by simp, by simp, ?_, ?_, ?_⟩ <;> (split <;> simp [save_checkpoint])
  · rw [hpc]
    simp only [herrc]
    refine ⟨by simp, by simp, ?_, ?_, ?_⟩ <;> (split <;> simp [save_checkpoint])

/-- Witness for C3: the 404 branch at candidate `abcd` from the fresh
state. -/
theorem classification_mapping_witness :
    List.lookup "ai" RDAP_ENDPOINTS = some aiEndpoint ∧
    stubOracle (aiEndpoint ++ ("abcd" ++ "." ++ "ai")) = .status 404 ∧
    (processCandidate stubOracle "ai" 0 "abcd" 0 (freshState 0)).availLine =
      some "abcd.ai" ∧
    (processCandidate stubOracle "ai" 0 "abcd" 0 (freshState 0)).state.available = 1 ∧
    (processCandidate stubOracle "ai" 0 "abcd" 0 (freshState 0)).state.checked = 1 :=
  ⟨by decide, by decide,
   ((classification_mapping stubOracle "ai" aiEndpoint "abcd" 0 0 (freshState 0)
      (by decide)).1.1 (by decide)).1,
   ((classification_mapping stubOracle "ai" aiEndpoint "abcd" 0 0 (freshState 0)
      (by decide)).1.1 (by decide)).2.2.1,
   (classification_mapping stubOracle "ai" aiEndpoint "abcd" 0 0 (freshState 0)
      (by decide)).1.2.2.2⟩

/-- Claim C5: with a nonzero processed-count limit, the final `checked`
of an invocation never exceeds `max s.checked limit` — so the number of
candidates processed during the invocation is at most the limit — and as
soon as `checked` has reached the limit the loop stops before processing
the current candidate: no lookup, no sink write, no counter change, and
`last_index` not advanced past it. -/
theorem limit_bound (oracle : String → RdapResponse) (tld : String)
    (limit now : Nat) (ws : List String) (i : Nat) (s : CheckState)
    (hl : limit ≠ 0) :
    (runAux oracle tld limit now ws i s).state.checked ≤ max s.checked limit ∧
    (limit ≤ s.checked →
      runAux oracle tld limit now ws i s =
        { state := s, availLines := [], takenLines := [], persists := [],
          requests := [], aborted := none }) := by
  refine ⟨runAux_limit_bound oracle tld limit now hl ws i s, fun h => ?_⟩
  cases ws with
  | nil => rfl
  | cons w ws =>
    simp only [runAux, if_pos (⟨hl, h⟩ : limit ≠ 0 ∧ limit ≤ s.checked)]

/-- Witness for C5: limit 2 already reached (`checked = 3`), so the run
stops immediately with everything untouched. -/
theorem limit_bound_witness :
    (2 : Nat) ≠ 0 ∧ (2 : Nat) ≤ (⟨3, 3, 1, 1, 1, 0, none⟩ : CheckState).checked ∧
    (runAux stubOracle "ai" 2 0 ["abcd"] 3 ⟨3, 3, 1, 1, 1, 0, none⟩).state.checked ≤
      max (⟨3, 3, 1, 1, 1, 0, none⟩ : CheckState).checked 2 ∧
    runAux stubOracle "ai" 2 0 ["abcd"] 3 ⟨3, 3, 1, 1, 1, 0, none⟩ =
      { state := ⟨3, 3, 1, 1, 1, 0, none⟩, availLines := [], takenLines := [],
        persists := [], requests := [], aborted := none } :=
  ⟨by decide, by decide,
   (limit_bound stubOracle "ai" 2 0 ["abcd"] 3 ⟨3, 3, 1, 1, 1, 0, none⟩ (by decide)).1,
   (limit_bound stubOracle "ai" 2 0 ["abcd"] 3 ⟨3, 3, 1, 1, 1, 0, none⟩ (by decide)).2
     (by decide)⟩

/-- Claim C6: a per-candidate lookup failure (timeout, transport error or
unexpected status, i.e. a response classifying to `none`) never aborts
the run: the iteration raises nothing, increments only `errors`, writes
to neither partition, and the loop advances to the next candidate — the
run on `word :: ws` behaves from there exactly as the run continuing on
`ws`. -/
theorem lookup_failure_containment (oracle : String → RdapResponse) (tld e : String)
    (now : Nat) (word : String) (ws : List String) (i : Nat) (s : CheckState)
    (hconf : List.lookup tld RDAP_ENDPOINTS = some e)
    (hfail : classify (oracle (e ++ (word ++ "." ++ tld))) = none) :
    (processCandidate oracle tld now word i s).error = none ∧
    (processCandidate oracle tld now word i s).state.errors = s.errors + 1 ∧
    (processCandidate oracle tld now word i s).availLine = none ∧
    (processCandidate oracle tld now word i s).takenLine = none ∧
    (runAux oracle tld 0 now (word :: ws) i s).aborted =
      (runAux oracle tld 0 now ws (i + 1)
        (processCandidate oracle tld now word i s).state).aborted ∧
    (runAux oracle tld 0 now (word :: ws) i s).state =
      (runAux oracle tld 0 now ws (i + 1)
        (processCandidate oracle tld now word i s).state).state ∧
    (runAux oracle tld 0 now (word :: ws) i s).availLines =
      (runAux oracle tld 0 now ws (i + 1)
        (processCandidate oracle tld now word i s).state).availLines ∧
    (runAux oracle tld 0 now (word :: ws) i s).takenLines =
      (runAux oracle tld 0 now ws (i + 1)
        (processCandidate oracle tld now word i s).state).takenLines := by
  have hnb : ¬((0 : Nat) ≠ 0 ∧ (0 : Nat) ≤ s.checked) := by simp
  have hpc := processCandidate_conf oracle tld e now word i s hconf
  have hlines : (processCandidate oracle tld now word i s).availLine = none ∧
      (processCandidate oracle tld now word i s).takenLine = none := by
    rw [hpc]
    simp only [hfail]
    constructor <;> simp
  have herrs : (processCandidate oracle tld now word i s).state.errors = s.errors + 1 := by
    rw [hpc]
    simp only [hfail]
    split <;> simp [save_checkpoint]
  rw [runAux_cons_conf oracle tld e 0 now word ws i s hconf hnb]
  refine ⟨(processCandidate_state_conf oracle tld e now word i s hconf).1,
    herrs, hlines.1, hlines.2, rfl, rfl, ?_, ?_⟩
  · simp [hlines.1]
  · simp [hlines.2]

/-- Witness for C6: the stub registry times out on `ijkl.ai`; the run
continues over the remaining candidate. -/
theorem lookup_failure_containment_witness :
    List.lookup "ai" RDAP_ENDPOINTS = some aiEndpoint ∧
    classify (stubOracle (aiEndpoint ++ ("ijkl" ++ "." ++ "ai"))) = none ∧
    (processCandidate stubOracle "ai" 0 "ijkl" 0 (freshState 0)).error = none ∧
    (processCandidate stubOracle "ai" 0 "ijkl" 0 (freshState 0)).state.errors = 1 ∧
    (runAux stubOracle "ai" 0 0 ["ijkl", "abcd"] 0 (freshState 0)).availLines =
      (runAux stubOracle "ai" 0 0 ["abcd"] 1
        (processCandidate stubOracle "ai" 0 "ijkl" 0 (freshState 0)).state).availLines :=
  ⟨by decide, by decide,
   (lookup_failure_containment stubOracle "ai" aiEndpoint 0 "ijkl" ["abcd"] 0
      (freshState 0) (by decide) (by decide)).1,
   (lookup_failure_containment stubOracle "ai" aiEndpoint 0 "ijkl" ["abcd"] 0
      (freshState 0) (by decide) (by decide)).2.1,
   (lookup_failure_containment stubOracle "ai" aiEndpoint 0 "ijkl" ["abcd"] 0
      (freshState 0) (by decide) (by decide)).2.2.2.2.2.2.1⟩

/-- Claim C10 (amended): for a loaded checkpoint whose `last_index` is at
least the number of candidates, the invocation — provided the candidate
list is nonempty — processes no candidate (no request, no sink line, no
counter change) and terminates normally, persisting the state exactly
once on exit. (The nonemptiness proviso is the amendment: with an empty
candidate list the run instead crashes before the loop — see the
counterexample.) -/
theorem resume_past_end (oracle : String → RdapResponse) (tld : String)
    (limit : Nat) (store : String → Option CheckState) (patterns : List String)
    (now : Nat) (hne : patterns ≠ [])
    (hpast : patterns.length ≤ (load_checkpoint store now tld).last_index) :
    mainRun oracle tld limit store patterns now =
      Except.ok { state := save_checkpoint now (load_checkpoint store now tld),
                  availLines := [], takenLines := [],
                  persists := [save_checkpoint now (load_checkpoint store now tld)],
                  requests := [] } := by
  have hlen : ¬(patterns.length = 0) := fun h => hne (List.length_eq_zero.mp h)
  have hdrop : patterns.drop (load_checkpoint store now tld).last_index = [] :=
    List.drop_eq_nil_of_le hpast
  simp only [mainRun, if_neg hlen, hdrop, runAux, List.nil_append]

/-- Witness for C10: a stored checkpoint with `last_index` 5 over a
single-candidate list. -/
theorem resume_past_end_witness :
    (["abcd"] : List String) ≠ [] ∧
    (["abcd"] : List String).length ≤
      (load_checkpoint (fun _ => some ⟨5, 5, 2, 2, 1, 4, none⟩) 9 "ai").last_index ∧
    mainRun stub404 "ai" 0 (fun _ => some ⟨5, 5, 2, 2, 1, 4, none⟩) ["abcd"] 9 =
      Except.ok { state := ⟨5, 5, 2, 2, 1, 4, some 9⟩, availLines := [],
                  takenLines := [], persists := [⟨5, 5, 2, 2, 1, 4, some 9⟩],
                  requests := [] } :=
  ⟨by decide, by decide,
   resume_past_end stub404 "ai" 0 (fun _ => some ⟨5, 5, 2, 2, 1, 4, none⟩) ["abcd"] 9
     (by decide) (by decide)⟩

/-- Counterexample to C10 as stated: with an empty candidate list and no
prior checkpoint (so `last_index = 0 ≥ 0 =` number of candidates), the
run does not terminate normally and persists nothing — the resume log of
source line 124 evaluates `start_index / total_patterns` with
`total_patterns = 0` and raises ZeroDivisionError before the loop. -/
theorem resume_past_end_counterexample :
    mainRun stub404 "ai" 0 (fun _ => none) [] 0 = Except.error "ZeroDivisionError" := rfl

end DomainCheck
